import Mathlib

/-
Verification of the layout-override synchronization subsystem of the
dsl-diagram-tool repository (Go), against its natural-language specification.

The Go code is shallowly embedded:
- Go `map[string]T` becomes an association list `List (String × T)` with
  replace-on-insert and delete semantics (`AList.get` / `AList.insert` /
  `AList.erase`); the operations below only ever observe maps through key
  lookup and emptiness, which the association list models faithfully.
- Go `float64` coordinates become `Rat`: the subsystem never performs
  arithmetic on coordinates, it only stores, retrieves and compares them
  with exactly representable literals (0, 0.5), so exact rationals model
  the double values that actually flow through the code.
- Fallible operations return `Except String _` / `Option _`.
- File I/O is modelled with an explicit in-memory file system passed
  through the state.
-/

namespace DiagTool

/-! ## Association lists: the embedding of Go string-keyed maps -/

/-- Lookup of a key: first matching entry (entries are unique for every
map built by the operations below). -/
def AList.get {α : Type} : List (String × α) → String → Option α
  | [], _ => none
  | (k', v) :: rest, k => if k' = k then some v else AList.get rest k

/-- Insert or replace: Go `m[k] = v`. -/
def AList.insert {α : Type} : List (String × α) → String → α → List (String × α)
  | [], k, v => [(k, v)]
  | (k', v') :: rest, k, v =>
      if k' = k then (k, v) :: rest else (k', v') :: AList.insert rest k v

/-- Removal of a key: Go `delete(m, k)`. -/
def AList.erase {α : Type} : List (String × α) → String → List (String × α)
  | [], _ => []
  | (k', v') :: rest, k =>
      if k' = k then AList.erase rest k else (k', v') :: AList.erase rest k

theorem AList.get_insert {α : Type} (l : List (String × α)) (k k' : String) (v : α) :
    AList.get (AList.insert l k v) k' = if k = k' then some v else AList.get l k' := by
  induction l with
  | nil => by_cases h : k = k' <;> simp [AList.insert, AList.get, h]
  | cons hd tl ih =>
      obtain ⟨k₀, v₀⟩ := hd
      by_cases h₀ : k₀ = k <;> by_cases h₁ : k = k' <;> by_cases h₂ : k₀ = k' <;>
        simp_all [AList.insert, AList.get]

theorem AList.get_insert_self {α : Type} (l : List (String × α)) (k : String) (v : α) :
    AList.get (AList.insert l k v) k = some v := by
  simp [AList.get_insert]

theorem AList.get_insert_ne {α : Type} (l : List (String × α)) (k k' : String) (v : α)
    (h : k ≠ k') : AList.get (AList.insert l k v) k' = AList.get l k' := by
  simp [AList.get_insert, h]

theorem AList.get_erase {α : Type} (l : List (String × α)) (k k' : String) :
    AList.get (AList.erase l k) k' = if k = k' then none else AList.get l k' := by
  induction l with
  | nil => by_cases h : k = k' <;> simp [AList.erase, AList.get, h]
  | cons hd tl ih =>
      obtain ⟨k₀, v₀⟩ := hd
      by_cases h₀ : k₀ = k <;> by_cases h₁ : k = k' <;> by_cases h₂ : k₀ = k' <;>
        simp_all [AList.erase, AList.get]

theorem AList.erase_of_get_none {α : Type} (l : List (String × α)) (k : String)
    (h : AList.get l k = none) : AList.erase l k = l := by
  induction l with
  | nil => rfl
  | cons hd tl ih =>
      obtain ⟨k₀, v₀⟩ := hd
      by_cases h₀ : k₀ = k <;> simp_all [AList.erase, AList.get]

/-! ## HashSource: SHA-256, truncated to the first 8 bytes, hex-encoded

Embedding of Go `HashSource` (crypto/sha256 over the UTF-8 bytes of the
source, `hex.EncodeToString(hash[:8])`).  Words are `Nat` reduced
`% 2^32` at every arithmetic step, bytes are `Nat` below 256. -/

/-- UTF-8 encoding of one scalar value (Go strings are UTF-8; `Char`
excludes surrogates, matching Go valid strings). -/
def utf8EncodeChar (c : Char) : List Nat :=
  let n := c.toNat
  if n < 128 then [n]
  else if n < 2048 then [192 + n / 64, 128 + n % 64]
  else if n < 65536 then [224 + n / 4096, 128 + n / 64 % 64, 128 + n % 64]
  else [240 + n / 262144, 128 + n / 4096 % 64, 128 + n / 64 % 64, 128 + n % 64]

/-- Byte sequence of a Go string: UTF-8 bytes of its characters. -/
def utf8Bytes (s : String) : List Nat :=
  (s.data.map utf8EncodeChar).flatten

/-- Right rotation of a 32-bit word. -/
def rotr32 (n x : Nat) : Nat :=
  ((x >>> n) ||| (x <<< (32 - n))) % 4294967296

/-- SHA-256 round constants (fractional parts of the cube roots of the
first 64 primes). -/
def sha256K : List Nat :=
  [1116352408, 1899447441, 3049323471, 3921009573, 961987163, 1508970993,
   2453635748, 2870763221, 3624381080, 310598401, 607225278, 1426881987,
   1925078388, 2162078206, 2614888103, 3248222580, 3835390401, 4022224774,
   264347078, 604807628, 770255983, 1249150122, 1555081692, 1996064986,
   2554220882, 2821834349, 2952996808, 3210313671, 3336571891, 3584528711,
   113926993, 338241895, 666307205, 773529912, 1294757372, 1396182291,
   1695183700, 1986661051, 2177026350, 2456956037, 2730485921, 2820302411,
   3259730800, 3345764771, 3516065817, 3600352804, 4094571909, 275423344,
   430227734, 506948616, 659060556, 883997877, 958139571, 1322822218,
   1537002063, 1747873779, 1955562222, 2024104815, 2227730452, 2361852424,
   2428436474, 2756734187, 3204031479, 3329325298]

/-- SHA-256 initial hash value (fractional parts of the square roots of
the first 8 primes). -/
def sha256H0 : List Nat :=
  [1779033703, 3144134277, 1013904242, 2773480762, 1359893119, 2600822924,
   528734635, 1541459225]

/-- Message-schedule small sigma 0. -/
def sSig0 (w : Nat) : Nat := (rotr32 7 w) ^^^ (rotr32 18 w) ^^^ (w >>> 3)

/-- Message-schedule small sigma 1. -/
def sSig1 (w : Nat) : Nat := (rotr32 17 w) ^^^ (rotr32 19 w) ^^^ (w >>> 10)

/-- Extend the 16-word block to the 64-word message schedule
(fuel-driven so the kernel can evaluate it). -/
def schedAux : Nat → List Nat → List Nat
  | 0, ws => ws
  | n + 1, ws =>
      let t := ws.length
      let w := (sSig1 (ws.getD (t - 2) 0) + ws.getD (t - 7) 0 +
                sSig0 (ws.getD (t - 15) 0) + ws.getD (t - 16) 0) % 4294967296
      schedAux n (ws ++ [w])

/-- One compression round; the state is the eight working words. -/
def sha256Round (st : List Nat) (kw : Nat × Nat) : List Nat :=
  match st with
  | [a, b, c, d, e, f, g, h] =>
      let s1 := (rotr32 6 e) ^^^ (rotr32 11 e) ^^^ (rotr32 25 e)
      let ch := (e &&& f) ^^^ ((e ^^^ 4294967295) &&& g)
      let temp1 := (h + s1 + ch + kw.1 + kw.2) % 4294967296
      let s0 := (rotr32 2 a) ^^^ (rotr32 13 a) ^^^ (rotr32 22 a)
      let maj := (a &&& b) ^^^ (a &&& c) ^^^ (b &&& c)
      let temp2 := (s0 + maj) % 4294967296
      [(temp1 + temp2) % 4294967296, a, b, c, (d + temp1) % 4294967296, e, f, g]
  | _ => st

/-- Big-endian packing of bytes into 32-bit words. -/
def toWords : List Nat → List Nat
  | b0 :: b1 :: b2 :: b3 :: rest =>
      (((b0 * 256 + b1) * 256 + b2) * 256 + b3) :: toWords rest
  | _ => []

/-- Compress one 64-byte block into the hash state. -/
def sha256Compress (h : List Nat) (block : List Nat) : List Nat :=
  let w := schedAux 48 (toWords block)
  let st := (sha256K.zip w).foldl sha256Round h
  List.zipWith (fun x y => (x + y) % 4294967296) h st

/-- Fold the compression over all 64-byte blocks (fuel-driven). -/
def sha256Blocks : Nat → List Nat → List Nat → List Nat
  | 0, h, _ => h
  | _ + 1, h, [] => h
  | fuel + 1, h, bs => sha256Blocks fuel (sha256Compress h (bs.take 64)) (bs.drop 64)

/-- Merkle-Damgard padding: 0x80, zeros to 56 mod 64, 8-byte big-endian
bit length. -/
def sha256Pad (msg : List Nat) : List Nat :=
  let l := msg.length
  let z := (119 - (l % 64)) % 64
  let bitLen := 8 * l
  msg ++ [128] ++ List.replicate z 0 ++
    [bitLen / 72057594037927936 % 256, bitLen / 281474976710656 % 256,
     bitLen / 1099511627776 % 256, bitLen / 4294967296 % 256,
     bitLen / 16777216 % 256, bitLen / 65536 % 256,
     bitLen / 256 % 256, bitLen % 256]

/-- Big-endian bytes of one 32-bit word. -/
def wordBytes (w : Nat) : List Nat :=
  [w / 16777216 % 256, w / 65536 % 256, w / 256 % 256, w % 256]

/-- SHA-256 digest (32 bytes) of a byte sequence. -/
def sha256Bytes (msg : List Nat) : List Nat :=
  let padded := sha256Pad msg
  let hh := sha256Blocks (padded.length / 64 + 1) sha256H0 padded
  (hh.map wordBytes).flatten

/-- Lowercase hex digit. -/
def hexDigit (n : Nat) : Char :=
  if n < 10 then Char.ofNat (48 + n) else Char.ofNat (87 + n)

/-- Lowercase hex encoding of a byte sequence (Go `hex.EncodeToString`). -/
def hexEncode (bs : List Nat) : String :=
  String.mk ((bs.map fun b => [hexDigit (b / 16), hexDigit (b % 16)]).flatten)

/-- HashSource computes a SHA256 hash of the D2 source content;
the Go code keeps the first 8 bytes, hex-encoded. -/
def HashSource (source : String) : String :=
  hexEncode ((sha256Bytes (utf8Bytes source)).take 8)

/-- Known-answer check of the SHA-256 embedding: the digest of the
one-byte string matches the published SHA-256 test vector, truncated the
way `HashSource` truncates. -/
theorem hashSource_known_answer : HashSource "a" = "ca978112ca1bbdca" := by decide

/-! ## NormalizeEdgeID -/

/-- HTML-entity decoding of a character stream.  Models Go
`html.UnescapeString` restricted to the entities that occur in edge
identifiers emitted by the rendering pipeline (the escaped arrow and the
other basic markup characters); the theorems below that quantify over
identifiers depend only on normalization being applied, not on the
entity table. -/
def unescapeChars : List Char → List Char
  | [] => []
  | '&' :: 'g' :: 't' :: ';' :: rest => '>' :: unescapeChars rest
  | '&' :: 'l' :: 't' :: ';' :: rest => '<' :: unescapeChars rest
  | '&' :: 'a' :: 'm' :: 'p' :: ';' :: rest => '&' :: unescapeChars rest
  | '&' :: 'q' :: 'u' :: 'o' :: 't' :: ';' :: rest => '"' :: unescapeChars rest
  | c :: rest => c :: unescapeChars rest

/-- NormalizeEdgeID ensures consistent edge ID format by decoding HTML
entities (Go: `html.UnescapeString(edgeID)`). -/
def NormalizeEdgeID (edgeID : String) : String :=
  String.mk (unescapeChars edgeID.data)

/-! ## Data model: the Override Record (`Metadata`) -/

/-- NodeOffset represents the offset from auto-layout position. -/
structure NodeOffset where
  DX : Rat
  DY : Rat
  deriving DecidableEq

/-- Vertex represents a bend point coordinate on an edge. -/
structure Vertex where
  X : Rat
  Y : Rat
  deriving DecidableEq

/-- LabelPosition represents the position of an edge label;
Distance is 0-1 along the edge path, Offset is perpendicular
displacement. -/
structure LabelPosition where
  Distance : Rat
  OffsetX : Rat
  OffsetY : Rat
  deriving DecidableEq

/-- Metadata stores position overrides for diagram nodes and edge
vertices; stored in a .d2meta file alongside the .d2 file. -/
structure Metadata where
  Version : Int
  Positions : List (String × NodeOffset)
  Vertices : List (String × List Vertex)
  RoutingMode : List (String × String)
  LabelPositions : List (String × LabelPosition)
  SourceHash : String
  deriving DecidableEq

/-- NewMetadata creates a new empty metadata structure. -/
def NewMetadata : Metadata :=
  { Version := 1
    Positions := []
    Vertices := []
    RoutingMode := []
    LabelPositions := []
    SourceHash := "" }

/-! ## Metadata operations -/

/-- ValidateAndClean checks if source hash matches and clears
positions, vertices, routing modes, and label positions if not; the
returned Bool is true if data was cleared. -/
def Metadata.ValidateAndClean (m : Metadata) (currentSource : String) : Metadata × Bool :=
  let currentHash := HashSource currentSource
  if m.SourceHash ≠ currentHash then
    ({ m with
        Positions := []
        Vertices := []
        RoutingMode := []
        LabelPositions := []
        SourceHash := currentHash }, true)
  else
    (m, false)

/-- SetPosition updates or adds a position offset for a node. -/
def Metadata.SetPosition (m : Metadata) (nodeID : String) (dx dy : Rat) : Metadata :=
  { m with Positions := AList.insert m.Positions nodeID { DX := dx, DY := dy } }

/-- GetPosition returns the position offset for a node; zero offset if
not found. -/
def Metadata.GetPosition (m : Metadata) (nodeID : String) : NodeOffset :=
  match AList.get m.Positions nodeID with
  | some offset => offset
  | none => { DX := 0, DY := 0 }

/-- ClearPosition removes the position offset for a node. -/
def Metadata.ClearPosition (m : Metadata) (nodeID : String) : Metadata :=
  { m with Positions := AList.erase m.Positions nodeID }

/-- HasPositions returns true if there are any position overrides. -/
def Metadata.HasPositions (m : Metadata) : Bool :=
  !m.Positions.isEmpty

/-- SetVertices updates or adds vertices for an edge; edge IDs are
normalized to handle HTML entity encoding. -/
def Metadata.SetVertices (m : Metadata) (edgeID : String) (vertices : List Vertex) : Metadata :=
  let normalizedID := NormalizeEdgeID edgeID
  if vertices.length = 0 then
    { m with Vertices := AList.erase m.Vertices normalizedID }
  else
    { m with Vertices := AList.insert m.Vertices normalizedID vertices }

/-- GetVertices returns the vertices for an edge; empty slice if not
found. -/
def Metadata.GetVertices (m : Metadata) (edgeID : String) : List Vertex :=
  let normalizedID := NormalizeEdgeID edgeID
  match AList.get m.Vertices normalizedID with
  | some vertices => vertices
  | none => []

/-- HasVertices returns true if there are any edge vertices. -/
def Metadata.HasVertices (m : Metadata) : Bool :=
  !m.Vertices.isEmpty

/-- SetRoutingMode updates or adds a routing mode for an edge; valid
modes are "direct" (default) and "orthogonal"; direct is default, no
need to store. -/
def Metadata.SetRoutingMode (m : Metadata) (edgeID : String) (mode : String) : Metadata :=
  let normalizedID := NormalizeEdgeID edgeID
  if mode = "" ∨ mode = "direct" then
    { m with RoutingMode := AList.erase m.RoutingMode normalizedID }
  else
    { m with RoutingMode := AList.insert m.RoutingMode normalizedID mode }

/-- GetRoutingMode returns the routing mode for an edge; "direct" if
not found. -/
def Metadata.GetRoutingMode (m : Metadata) (edgeID : String) : String :=
  let normalizedID := NormalizeEdgeID edgeID
  match AList.get m.RoutingMode normalizedID with
  | some mode => mode
  | none => "direct"

/-- HasRoutingModes returns true if there are any non-default routing
modes. -/
def Metadata.HasRoutingModes (m : Metadata) : Bool :=
  !m.RoutingMode.isEmpty

/-- SetLabelPosition updates or adds a label position for an edge; the
default (0.5, 0, 0) is not stored. -/
def Metadata.SetLabelPosition (m : Metadata) (edgeID : String)
    (distance offsetX offsetY : Rat) : Metadata :=
  let normalizedID := NormalizeEdgeID edgeID
  if distance = 0.5 ∧ offsetX = 0 ∧ offsetY = 0 then
    { m with LabelPositions := AList.erase m.LabelPositions normalizedID }
  else
    let lp : LabelPosition := { Distance := distance, OffsetX := offsetX, OffsetY := offsetY }
    { m with LabelPositions := AList.insert m.LabelPositions normalizedID lp }

/-- GetLabelPosition returns the label position for an edge; default
position (0.5, 0, 0) if not found. -/
def Metadata.GetLabelPosition (m : Metadata) (edgeID : String) : LabelPosition :=
  let normalizedID := NormalizeEdgeID edgeID
  match AList.get m.LabelPositions normalizedID with
  | some pos => pos
  | none => { Distance := 0.5, OffsetX := 0, OffsetY := 0 }

/-- HasLabelPositions returns true if there are any custom label
positions. -/
def Metadata.HasLabelPositions (m : Metadata) : Bool :=
  !m.LabelPositions.isEmpty

/-! ## Sidecar persistence: MetadataPath, JSON model, load and save

Go serializes `Metadata` with `encoding/json` and writes the text to
the sidecar file.  The embedding keeps the JSON at the value level (a
tree of nulls, numbers, strings, arrays, objects); Go number round-trip
exactness (float64 printed in shortest form and reparsed) is thereby
represented by numbers passing through unchanged.  The nil-map fixups
that `LoadMetadata` performs after unmarshalling are folded into the
decoder: an absent or null map field decodes directly to the empty
map. -/

/-- Suffix of the path from the last dot of its final element; Go
`filepath.Ext` (on a Unix path, the separator is the slash).  The input
is the reversed character list, the accumulator collects the characters
already passed, in original order. -/
def extRevAux : List Char → List Char → List Char
  | [], _ => []
  | c :: rest, acc =>
      if c = '/' then []
      else if c = '.' then c :: acc
      else extRevAux rest (c :: acc)

/-- Go `filepath.Ext`. -/
def pathExt (p : String) : String :=
  String.mk (extRevAux p.data.reverse [])

/-- MetadataPath returns the .d2meta path for a given .d2 file path
(Go: `strings.TrimSuffix(d2Path, ext) + ".d2meta"`; the extension is a
suffix of the path by construction, so the trim always removes it). -/
def MetadataPath (d2Path : String) : String :=
  let ext := pathExt d2Path
  String.mk (d2Path.data.take (d2Path.data.length - ext.data.length)) ++ ".d2meta"

/-- JSON values. -/
inductive Json where
  | null : Json
  | bool (b : Bool) : Json
  | num (q : Rat) : Json
  | str (s : String) : Json
  | arr (xs : List Json) : Json
  | obj (fields : List (String × Json)) : Json

/-- Field lookup in a JSON object; the last occurrence wins, as in Go
struct unmarshalling. -/
def Json.getField : List (String × Json) → String → Option Json
  | [], _ => none
  | (k', v) :: rest, k =>
      match Json.getField rest k with
      | some r => some r
      | none => if k' = k then some v else none

/-- Decode a JSON value into a float64 field (null leaves the zero
value, as Go `json.Unmarshal` does). -/
def decodeFloat : Json → Option Rat
  | Json.null => some 0
  | Json.num q => some q
  | _ => none

/-- Decode a JSON value into a string field. -/
def decodeString : Json → Option String
  | Json.null => some ""
  | Json.str s => some s
  | _ => none

/-- Decode a JSON value into an int field; a fractional number is an
unmarshalling error in Go. -/
def decodeInt : Json → Option Int
  | Json.null => some 0
  | Json.num q => if q.den = 1 then some q.num else none
  | _ => none

/-- Decode an object field, using the zero value when the field is
absent. -/
def decField {α : Type} (fields : List (String × Json)) (k : String) (d : α)
    (dec : Json → Option α) : Option α :=
  match Json.getField fields k with
  | none => some d
  | some j => dec j

/-- Decode a `NodeOffset`. -/
def decodeNodeOffset : Json → Option NodeOffset
  | Json.null => some { DX := 0, DY := 0 }
  | Json.obj fields => do
      let dx ← decField fields "dx" 0 decodeFloat
      let dy ← decField fields "dy" 0 decodeFloat
      some { DX := dx, DY := dy }
  | _ => none

/-- Decode a `Vertex`. -/
def decodeVertex : Json → Option Vertex
  | Json.null => some { X := 0, Y := 0 }
  | Json.obj fields => do
      let x ← decField fields "x" 0 decodeFloat
      let y ← decField fields "y" 0 decodeFloat
      some { X := x, Y := y }
  | _ => none

/-- Decode a `LabelPosition`. -/
def decodeLabelPosition : Json → Option LabelPosition
  | Json.null => some { Distance := 0, OffsetX := 0, OffsetY := 0 }
  | Json.obj fields => do
      let d ← decField fields "distance" 0 decodeFloat
      let ox ← decField fields "offsetX" 0 decodeFloat
      let oy ← decField fields "offsetY" 0 decodeFloat
      some { Distance := d, OffsetX := ox, OffsetY := oy }
  | _ => none

/-- Decode the elements of a JSON array one by one, failing if any
element fails. -/
def decodeList {α : Type} (dec : Json → Option α) : List Json → Option (List α)
  | [] => some []
  | j :: rest => do
      let v ← dec j
      let vs ← decodeList dec rest
      some (v :: vs)

/-- Decode a `[]Vertex` slice. -/
def decodeVertexList : Json → Option (List Vertex)
  | Json.null => some []
  | Json.arr xs => decodeList decodeVertex xs
  | _ => none

/-- Decode the entries of a JSON object one by one, failing if any
value fails. -/
def decodeEntries {α : Type} (dec : Json → Option α) :
    List (String × Json) → Option (List (String × α))
  | [] => some []
  | (k, j) :: rest => do
      let v ← dec j
      let vs ← decodeEntries dec rest
      some ((k, v) :: vs)

/-- Decode a string-keyed map whose values decode with `dec`. -/
def decodeMap {α : Type} (dec : Json → Option α) : Json → Option (List (String × α))
  | Json.null => some []
  | Json.obj fields => decodeEntries dec fields
  | _ => none

/-- Decode a sidecar document into a `Metadata` record (Go
`json.Unmarshal` into the `Metadata` struct, with the nil-map fixups of
`LoadMetadata` folded in: absent and null map fields become empty
maps). -/
def decodeMetadata : Json → Option Metadata
  | Json.null =>
      some { Version := 0, Positions := [], Vertices := [], RoutingMode := [],
             LabelPositions := [], SourceHash := "" }
  | Json.obj fields => do
      let version ← decField fields "version" 0 decodeInt
      let positions ← decField fields "positions" [] (decodeMap decodeNodeOffset)
      let vertices ← decField fields "vertices" [] (decodeMap decodeVertexList)
      let routing ← decField fields "routingMode" [] (decodeMap decodeString)
      let labels ← decField fields "labelPositions" [] (decodeMap decodeLabelPosition)
      let sourceHash ← decField fields "sourceHash" "" decodeString
      some { Version := version, Positions := positions, Vertices := vertices,
             RoutingMode := routing, LabelPositions := labels, SourceHash := sourceHash }
  | _ => none

/-- Encode a `NodeOffset` (json tags dx, dy). -/
def encodeNodeOffset (o : NodeOffset) : Json :=
  Json.obj [("dx", Json.num o.DX), ("dy", Json.num o.DY)]

/-- Encode a `Vertex` (json tags x, y). -/
def encodeVertex (v : Vertex) : Json :=
  Json.obj [("x", Json.num v.X), ("y", Json.num v.Y)]

/-- Encode a `LabelPosition` (distance; offsetX and offsetY carry
omitempty, so a zero offset is omitted). -/
def encodeLabelPosition (p : LabelPosition) : Json :=
  Json.obj ([("distance", Json.num p.Distance)] ++
    (if p.OffsetX = 0 then [] else [("offsetX", Json.num p.OffsetX)]) ++
    (if p.OffsetY = 0 then [] else [("offsetY", Json.num p.OffsetY)]))

/-- Encode a `[]Vertex` slice. -/
def encodeVertexList (vs : List Vertex) : Json :=
  Json.arr (vs.map encodeVertex)

/-- Encode a string-keyed map. -/
def encodeMap {α : Type} (enc : α → Json) (l : List (String × α)) : Json :=
  Json.obj (l.map fun kv => (kv.1, enc kv.2))

/-- Encode a `Metadata` record the way `json.Marshal` lays out the Go
struct: version and positions always present, the three other maps
carry omitempty (omitted when empty), sourceHash always present. -/
def encodeMetadata (m : Metadata) : Json :=
  Json.obj ([("version", Json.num (m.Version : Rat)),
             ("positions", encodeMap encodeNodeOffset m.Positions)] ++
    (if m.Vertices.isEmpty then []
     else [("vertices", encodeMap encodeVertexList m.Vertices)]) ++
    (if m.RoutingMode.isEmpty then []
     else [("routingMode", encodeMap Json.str m.RoutingMode)]) ++
    (if m.LabelPositions.isEmpty then []
     else [("labelPositions", encodeMap encodeLabelPosition m.LabelPositions)]) ++
    [("sourceHash", Json.str m.SourceHash)])

/-- Sidecar file system: path to stored JSON document. -/
def SidecarFS : Type := List (String × Json)

/-- LoadMetadata loads metadata from the .d2meta file, returning empty
metadata if the file does not exist and an error if it is present but
does not unmarshal into the Record shape. -/
def LoadMetadata (d2Path : String) (fs : SidecarFS) : Except String Metadata :=
  match AList.get fs (MetadataPath d2Path) with
  | none => Except.ok NewMetadata
  | some j =>
      match decodeMetadata j with
      | some m => Except.ok m
      | none => Except.error "invalid metadata file"

/-- SaveMetadata saves metadata to the .d2meta file (marshalling never
fails for this struct shape, and the file write is modelled as always
succeeding). -/
def SaveMetadata (d2Path : String) (m : Metadata) (fs : SidecarFS) : SidecarFS :=
  AList.insert fs (MetadataPath d2Path) (encodeMetadata m)

/-! ## Server state and the WebSocket protocol

The `Server` struct of server.go, restricted to the fields the claims
touch: the opened file path, the cached file content, the metadata
Record, plus the two explicit file stores standing for the disk (the
sidecar store written by `SaveMetadata` and the source-file store
written by save requests).  The mutexes of the Go code serialize the
operations; the embedding models each handler step as an atomic state
transition. -/

structure SState where
  FilePath : String
  fileContent : String
  metadata : Metadata
  fs : SidecarFS
  sourceFs : List (String × String)

/-- WSMessage represents a WebSocket message (the Go field `Type` is
spelled `typ` because `Type` is reserved in Lean); absent JSON fields
are the Go zero values, given here as defaults. -/
structure WSMessage where
  typ : String := ""
  Source : String := ""
  SVG : String := ""
  Error : String := ""
  NodeID : String := ""
  DX : Rat := 0
  DY : Rat := 0
  Positions : List (String × NodeOffset) := []
  EdgeID : String := ""
  Vertices : List Vertex := []
  AllVertices : List (String × List Vertex) := []
  RoutingMode : String := ""
  AllRoutingMode : List (String × String) := []
  LabelDistance : Rat := 0
  LabelOffsetX : Rat := 0
  LabelOffsetY : Rat := 0
  AllLabelPositions : List (String × LabelPosition) := []
  deriving DecidableEq

/-- A message sent by a handler: either written on the originating
viewer connection only, or broadcast to every connected viewer. -/
inductive Outgoing where
  | toOrigin (m : WSMessage) : Outgoing
  | toAll (m : WSMessage) : Outgoing
  deriving DecidableEq

/-- GetMetadata returns a copy of the current metadata; the Go code
builds the copy with only `Version`, `SourceHash` and `Positions` set
and copies the `Positions` entries, so the three other maps of the copy
stay nil (empty here). -/
def SState.GetMetadata (s : SState) : Metadata :=
  { Version := s.metadata.Version
    SourceHash := s.metadata.SourceHash
    Positions := s.metadata.Positions
    Vertices := []
    RoutingMode := []
    LabelPositions := [] }

/-- Messages pushed by `handleWebSocket` when a viewer connection is
established: the current file content when a file is open, then, when
the metadata copy has any positions, vertices, routing modes or label
positions, one consolidated positions message carrying all four maps of
that copy. -/
def initialMessages (s : SState) : List WSMessage :=
  (if s.FilePath ≠ "" then
    [{ typ := "file-changed", Source := s.fileContent }]
   else []) ++
  (let meta := s.GetMetadata
   if meta.HasPositions || meta.HasVertices || meta.HasRoutingModes
      || meta.HasLabelPositions then
     [{ typ := "positions"
        Positions := meta.Positions
        AllVertices := meta.Vertices
        AllRoutingMode := meta.RoutingMode
        AllLabelPositions := meta.LabelPositions }]
   else [])

/-- SetNodePosition updates a node position offset and saves metadata
when a file is open. -/
def SState.SetNodePosition (s : SState) (nodeID : String) (dx dy : Rat) : SState :=
  let md := s.metadata.SetPosition nodeID dx dy
  let s' := { s with metadata := md }
  if s.FilePath ≠ "" then { s' with fs := SaveMetadata s.FilePath md s.fs } else s'

/-- ClearAllPositions clears all position overrides; the Go code resets
only the `Positions` map of the metadata, then saves. -/
def SState.ClearAllPositions (s : SState) : SState :=
  let md := { s.metadata with Positions := [] }
  let s' := { s with metadata := md }
  if s.FilePath ≠ "" then { s' with fs := SaveMetadata s.FilePath md s.fs } else s'

/-- Modelled from the spec: the Server wrapper `SetEdgeVertices` is
absent from the provided sources (only its caller in the WebSocket
handler is present); per spec section 4.4 an override mutation performs
the corresponding Store mutation and persists, which is also the
pattern of the present wrapper `SetNodePosition`. -/
def SState.SetEdgeVertices (s : SState) (edgeID : String) (vs : List Vertex) : SState :=
  let md := s.metadata.SetVertices edgeID vs
  let s' := { s with metadata := md }
  if s.FilePath ≠ "" then { s' with fs := SaveMetadata s.FilePath md s.fs } else s'

/-- Modelled from the spec: the Server wrapper `SetRoutingMode` is
absent from the provided sources; same pattern as `SetNodePosition`. -/
def SState.SetRoutingMode (s : SState) (edgeID : String) (mode : String) : SState :=
  let md := s.metadata.SetRoutingMode edgeID mode
  let s' := { s with metadata := md }
  if s.FilePath ≠ "" then { s' with fs := SaveMetadata s.FilePath md s.fs } else s'

/-- Modelled from the spec: the Server wrapper `SetLabelPosition` is
absent from the provided sources; same pattern as `SetNodePosition`. -/
def SState.SetLabelPosition (s : SState) (edgeID : String)
    (distance offsetX offsetY : Rat) : SState :=
  let md := s.metadata.SetLabelPosition edgeID distance offsetX offsetY
  let s' := { s with metadata := md }
  if s.FilePath ≠ "" then { s' with fs := SaveMetadata s.FilePath md s.fs } else s'

/-- One iteration of the `handleWebSocket` message loop: the Go switch
on `msg.Type`, written as the equivalent chain of string comparisons
(a Go type switch with no default case, so an unrecognized message is
silently ignored).  Rendering is an external collaborator, passed in as
`render`; file writes are modelled as always succeeding, so the
write-failure error branches of the Go code are unreachable here. -/
def handleMessage (render : String → Except String String) (st : SState)
    (msg : WSMessage) : SState × List Outgoing :=
  if msg.typ = "render" then
    match render msg.Source with
    | Except.error e => (st, [Outgoing.toOrigin { typ := "error", Error := e }])
    | Except.ok svg => (st, [Outgoing.toOrigin { typ := "rendered", SVG := svg }])
  else if msg.typ = "save" then
    if st.FilePath = "" then
      (st, [Outgoing.toOrigin { typ := "error", Error := "No file opened" }])
    else
      ({ st with fileContent := msg.Source
                 sourceFs := AList.insert st.sourceFs st.FilePath msg.Source },
       [Outgoing.toOrigin { typ := "saved" }])
  else if msg.typ = "position" then
    if msg.NodeID = "" then
      (st, [Outgoing.toOrigin { typ := "error", Error := "nodeId is required" }])
    else
      (st.SetNodePosition msg.NodeID msg.DX msg.DY,
       [Outgoing.toOrigin { typ := "position-saved", NodeID := msg.NodeID }])
  else if msg.typ = "vertices" then
    if msg.EdgeID = "" then
      (st, [Outgoing.toOrigin { typ := "error", Error := "edgeId is required" }])
    else
      (st.SetEdgeVertices msg.EdgeID msg.Vertices,
       [Outgoing.toOrigin { typ := "vertices-saved", EdgeID := msg.EdgeID }])
  else if msg.typ = "routing" then
    if msg.EdgeID = "" then
      (st, [Outgoing.toOrigin { typ := "error", Error := "edgeId is required" }])
    else
      (st.SetRoutingMode msg.EdgeID msg.RoutingMode,
       [Outgoing.toOrigin
         { typ := "routing-saved", EdgeID := msg.EdgeID, RoutingMode := msg.RoutingMode }])
  else if msg.typ = "label-position" then
    if msg.EdgeID = "" then
      (st, [Outgoing.toOrigin { typ := "error", Error := "edgeId is required" }])
    else
      (st.SetLabelPosition msg.EdgeID msg.LabelDistance msg.LabelOffsetX msg.LabelOffsetY,
       [Outgoing.toOrigin { typ := "label-position-saved", EdgeID := msg.EdgeID }])
  else if msg.typ = "clear-positions" then
    (st.ClearAllPositions, [Outgoing.toAll { typ := "positions-cleared" }])
  else
    (st, [])

/-! ## Round-trip lemmas for the sidecar serialization -/

theorem decodeNodeOffset_encode (o : NodeOffset) :
    decodeNodeOffset (encodeNodeOffset o) = some o := rfl

theorem decodeVertex_encode (v : Vertex) :
    decodeVertex (encodeVertex v) = some v := rfl

theorem decodeLabelPosition_encode (p : LabelPosition) :
    decodeLabelPosition (encodeLabelPosition p) = some p := by
  obtain ⟨d, ox, oy⟩ := p
  by_cases hx : ox = 0 <;> by_cases hy : oy = 0 <;>
    simp [encodeLabelPosition, decodeLabelPosition, decField, Json.getField,
      decodeFloat, hx, hy]

theorem decodeList_encode {α : Type} (dec : Json → Option α) (enc : α → Json)
    (h : ∀ a, dec (enc a) = some a) (l : List α) :
    decodeList dec (l.map enc) = some l := by
  induction l with
  | nil => rfl
  | cons hd tl ih => simp [decodeList, h, ih]

theorem decodeVertexList_encode (vs : List Vertex) :
    decodeVertexList (encodeVertexList vs) = some vs := by
  simp [encodeVertexList, decodeVertexList,
    decodeList_encode decodeVertex encodeVertex decodeVertex_encode]

theorem decodeMap_encode {α : Type} (dec : Json → Option α) (enc : α → Json)
    (h : ∀ a, dec (enc a) = some a) (l : List (String × α)) :
    decodeMap dec (encodeMap enc l) = some l := by
  rw [encodeMap, decodeMap]
  induction l with
  | nil => rfl
  | cons hd tl ih => simp [decodeEntries, h, ih]

theorem decodeMetadata_encode (m : Metadata) :
    decodeMetadata (encodeMetadata m) = some m := by
  obtain ⟨ver, pos, verts, rout, labs, hash⟩ := m
  by_cases hv : verts = [] <;> by_cases hr : rout = [] <;> by_cases hl : labs = [] <;>
    simp [encodeMetadata, decodeMetadata, decField, Json.getField, decodeInt,
      decodeString,
      decodeMap_encode decodeNodeOffset encodeNodeOffset decodeNodeOffset_encode,
      decodeMap_encode decodeVertexList encodeVertexList decodeVertexList_encode,
      decodeMap_encode decodeString Json.str (fun _ => rfl),
      decodeMap_encode decodeLabelPosition encodeLabelPosition decodeLabelPosition_encode,
      hv, hr, hl]

/-! ## Claims -/

/-- C2: reconcile (`ValidateAndClean`) leaves a Record whose stored
digest equals `fingerprint(T)` unchanged and returns
`invalidated = false`; on digest mismatch it empties all four override
maps, stamps the digest of T, and returns `invalidated = true`. -/
theorem C2_reconcile (m : Metadata) (t : String) :
    (m.SourceHash = HashSource t → m.ValidateAndClean t = (m, false)) ∧
    (m.SourceHash ≠ HashSource t →
      m.ValidateAndClean t =
        ({ Version := m.Version, Positions := [], Vertices := [], RoutingMode := [],
           LabelPositions := [], SourceHash := HashSource t }, true)) := by
  constructor
  · intro h; simp [Metadata.ValidateAndClean, h]
  · intro h; simp [Metadata.ValidateAndClean, h]

/-- Concrete Record for the C2 witness, stamped with the digest of the
text "t1". -/
def mC2 : Metadata :=
  { Version := 1
    Positions := [("n", { DX := 1, DY := 2 })]
    Vertices := [("a->b", [{ X := 3, Y := 4 }])]
    RoutingMode := [("a->b", "orthogonal")]
    LabelPositions := []
    SourceHash := HashSource "t1" }

/-- Witness for C2, at a Record whose digest matches "t1": reconcile
against "t1" keeps it and reports false, reconcile against "t2" clears
every map, stamps the new digest and reports true. -/
theorem C2_reconcile_witness :
    mC2.ValidateAndClean "t1" = (mC2, false) ∧
    mC2.ValidateAndClean "t2" =
      ({ Version := 1, Positions := [], Vertices := [], RoutingMode := [],
         LabelPositions := [], SourceHash := HashSource "t2" }, true) :=
  ⟨(C2_reconcile mC2 "t1").1 rfl, (C2_reconcile mC2 "t2").2 (by decide)⟩

/-- C4: saving a Record to a path and loading from that path yields the
Record back, every field equal (the JSON is modelled at the value
level, where the exact numeric round-trip of the Go encoder is the
identity on the stored rationals). -/
theorem C4_save_load_roundtrip (d2Path : String) (fs : SidecarFS) (m : Metadata) :
    LoadMetadata d2Path (SaveMetadata d2Path m fs) = Except.ok m := by
  simp [LoadMetadata, SaveMetadata, AList.get_insert_self, decodeMetadata_encode]

/-- C5: load returns the empty Record and no error when no sidecar file
exists at the derived path, and an error when a sidecar document exists
but does not decode to the Record shape. -/
theorem C5_load_absent_or_malformed (d2Path : String) (fs : SidecarFS) :
    (AList.get fs (MetadataPath d2Path) = none →
      LoadMetadata d2Path fs = Except.ok NewMetadata) ∧
    (∀ j, AList.get fs (MetadataPath d2Path) = some j → decodeMetadata j = none →
      LoadMetadata d2Path fs = Except.error "invalid metadata file") := by
  constructor
  · intro h; simp [LoadMetadata, h]
  · intro j hj hd; simp [LoadMetadata, hj, hd]

/-- Sidecar store for the C5 witness: one malformed document. -/
def fsC5 : SidecarFS := [("/n/a.d2meta", Json.str "not-a-record")]

/-- Witness for C5: loading a path with no sidecar yields the empty
Record, loading the path whose sidecar is malformed yields the error. -/
theorem C5_load_witness :
    (AList.get fsC5 (MetadataPath "/n/b.d2") = none ∧
      LoadMetadata "/n/b.d2" fsC5 = Except.ok NewMetadata) ∧
    (AList.get fsC5 (MetadataPath "/n/a.d2") = some (Json.str "not-a-record") ∧
      decodeMetadata (Json.str "not-a-record") = none ∧
      LoadMetadata "/n/a.d2" fsC5 = Except.error "invalid metadata file") :=
  ⟨⟨rfl, (C5_load_absent_or_malformed "/n/b.d2" fsC5).1 rfl⟩,
   ⟨rfl, rfl, (C5_load_absent_or_malformed "/n/a.d2" fsC5).2 (Json.str "not-a-record") rfl rfl⟩⟩

/-- C6: the edge-keyed Store operations normalize the identifier before
lookup and storage, so two representations with the same decoded form
drive the same Store key: storing vertices under one representation and
reading them through the other returns them, and the vertex, routing
mode and label placement operations are invariant under exchanging the
two representations. -/
theorem C6_edge_key_normalization (m : Metadata) (e1 e2 : String)
    (h : NormalizeEdgeID e1 = NormalizeEdgeID e2) :
    (∀ v, m.SetVertices e1 v = m.SetVertices e2 v) ∧
    (∀ v, (m.SetVertices e1 v).GetVertices e2 = v) ∧
    (∀ mo, m.SetRoutingMode e1 mo = m.SetRoutingMode e2 mo) ∧
    m.GetRoutingMode e1 = m.GetRoutingMode e2 ∧
    (∀ d ox oy, m.SetLabelPosition e1 d ox oy = m.SetLabelPosition e2 d ox oy) ∧
    m.GetLabelPosition e1 = m.GetLabelPosition e2 := by
  refine ⟨?_, ?_, ?_, ?_, ?_, ?_⟩
  · intro v; simp [Metadata.SetVertices, h]
  · intro v
    by_cases hv : v = []
    · subst hv
      simp [Metadata.SetVertices, Metadata.GetVertices, h, AList.get_erase]
    · have hlen : ¬ v.length = 0 := by simpa using hv
      simp [Metadata.SetVertices, Metadata.GetVertices, h, hlen, AList.get_insert_self]
  · intro mo; simp [Metadata.SetRoutingMode, h]
  · simp [Metadata.GetRoutingMode, h]
  · intro d ox oy; simp [Metadata.SetLabelPosition, h]
  · simp [Metadata.GetLabelPosition, h]

/-- Witness for C6: the markup-escaped representation of the arrow edge
identifier and the literal one share the Store key. -/
theorem C6_edge_key_normalization_witness :
    NormalizeEdgeID "a-&gt;b" = NormalizeEdgeID "a->b" ∧
    (NewMetadata.SetVertices "a-&gt;b" [{ X := 1, Y := 2 }]).GetVertices "a->b" =
      [{ X := 1, Y := 2 }] ∧
    NewMetadata.SetRoutingMode "a-&gt;b" "orthogonal" =
      NewMetadata.SetRoutingMode "a->b" "orthogonal" ∧
    NewMetadata.SetLabelPosition "a-&gt;b" 0.25 3 4 =
      NewMetadata.SetLabelPosition "a->b" 0.25 3 4 :=
  ⟨by decide,
   (C6_edge_key_normalization NewMetadata "a-&gt;b" "a->b" (by decide)).2.1 _,
   (C6_edge_key_normalization NewMetadata "a-&gt;b" "a->b" (by decide)).2.2.1 _,
   (C6_edge_key_normalization NewMetadata "a-&gt;b" "a->b" (by decide)).2.2.2.2.1 _ _ _⟩

/-- C7: setting the routing mode of an edge to the default ("direct" or
the empty string) removes its entry rather than storing it; on a Record
with no entry for the edge the routing-mode map is left unchanged, and
reading an absent edge returns "direct". -/
theorem C7_routing_default_elision (m : Metadata) (id mode : String)
    (h : mode = "" ∨ mode = "direct") :
    AList.get (m.SetRoutingMode id mode).RoutingMode (NormalizeEdgeID id) = none ∧
    (AList.get m.RoutingMode (NormalizeEdgeID id) = none →
      (m.SetRoutingMode id mode).RoutingMode = m.RoutingMode) ∧
    (AList.get m.RoutingMode (NormalizeEdgeID id) = none →
      m.GetRoutingMode id = "direct") := by
  refine ⟨?_, ?_, ?_⟩
  · rcases h with h | h <;> subst h <;>
      simp [Metadata.SetRoutingMode, AList.get_erase]
  · intro habs
    rcases h with h | h <;> subst h <;>
      simp [Metadata.SetRoutingMode, AList.erase_of_get_none _ _ habs]
  · intro habs
    simp [Metadata.GetRoutingMode, habs]

/-- Witness for C7: applying the default mode "direct" to the empty
Record leaves the routing-mode map absent, and reading the absent edge
returns "direct". -/
theorem C7_routing_default_elision_witness :
    AList.get (NewMetadata.SetRoutingMode "a->b" "direct").RoutingMode
      (NormalizeEdgeID "a->b") = none ∧
    (NewMetadata.SetRoutingMode "a->b" "direct").RoutingMode = NewMetadata.RoutingMode ∧
    NewMetadata.GetRoutingMode "a->b" = "direct" :=
  ⟨(C7_routing_default_elision NewMetadata "a->b" "direct" (Or.inr rfl)).1,
   (C7_routing_default_elision NewMetadata "a->b" "direct" (Or.inr rfl)).2.1 rfl,
   (C7_routing_default_elision NewMetadata "a->b" "direct" (Or.inr rfl)).2.2 rfl⟩

/-- The mutations of the Override Store (the Metadata mutators of the
source, with reconcile included since it also rewrites the maps). -/
inductive StoreMutation where
  | setPosition (nodeID : String) (dx dy : Rat) : StoreMutation
  | clearPosition (nodeID : String) : StoreMutation
  | setVertices (edgeID : String) (vs : List Vertex) : StoreMutation
  | setRoutingMode (edgeID : String) (mode : String) : StoreMutation
  | setLabelPosition (edgeID : String) (distance offsetX offsetY : Rat) : StoreMutation
  | validateAndClean (source : String) : StoreMutation

/-- Apply one Store mutation. -/
def applyMutation (m : Metadata) : StoreMutation → Metadata
  | StoreMutation.setPosition id dx dy => m.SetPosition id dx dy
  | StoreMutation.clearPosition id => m.ClearPosition id
  | StoreMutation.setVertices id vs => m.SetVertices id vs
  | StoreMutation.setRoutingMode id mo => m.SetRoutingMode id mo
  | StoreMutation.setLabelPosition id d ox oy => m.SetLabelPosition id d ox oy
  | StoreMutation.validateAndClean src => (m.ValidateAndClean src).1

/-- No key of the vertices map is bound to an empty list. -/
def NoEmptyVertexLists (m : Metadata) : Prop :=
  ∀ k l, AList.get m.Vertices k = some l → l ≠ []

theorem setRoutingMode_vertices (m : Metadata) (id mo : String) :
    (m.SetRoutingMode id mo).Vertices = m.Vertices := by
  by_cases h : mo = "" ∨ mo = "direct" <;> simp [Metadata.SetRoutingMode, h]

theorem setLabelPosition_vertices (m : Metadata) (id : String) (d ox oy : Rat) :
    (m.SetLabelPosition id d ox oy).Vertices = m.Vertices := by
  by_cases h : d = 0.5 ∧ ox = 0 ∧ oy = 0 <;> simp [Metadata.SetLabelPosition, h]

theorem validateAndClean_vertices (m : Metadata) (src : String) :
    ((m.ValidateAndClean src).1).Vertices = [] ∨
    ((m.ValidateAndClean src).1).Vertices = m.Vertices := by
  by_cases h : m.SourceHash ≠ HashSource src <;> simp [Metadata.ValidateAndClean, h]

theorem applyMutation_noEmpty (m : Metadata) (mu : StoreMutation)
    (h : NoEmptyVertexLists m) : NoEmptyVertexLists (applyMutation m mu) := by
  cases mu with
  | setPosition id dx dy => exact h
  | clearPosition id => exact h
  | setRoutingMode id mo =>
      intro k l hk
      rw [applyMutation, setRoutingMode_vertices] at hk
      exact h k l hk
  | setLabelPosition id d ox oy =>
      intro k l hk
      rw [applyMutation, setLabelPosition_vertices] at hk
      exact h k l hk
  | validateAndClean src =>
      intro k l hk
      rw [applyMutation] at hk
      rcases validateAndClean_vertices m src with hv | hv
      · rw [hv] at hk; simp [AList.get] at hk
      · rw [hv] at hk; exact h k l hk
  | setVertices id vs =>
      intro k l hk
      by_cases hv : vs.length = 0
      · rw [applyMutation, Metadata.SetVertices] at hk
        rw [if_pos hv] at hk
        rw [AList.get_erase] at hk
        by_cases hkk : NormalizeEdgeID id = k
        · rw [if_pos hkk] at hk; exact absurd hk (by simp)
        · rw [if_neg hkk] at hk; exact h k l hk
      · rw [applyMutation, Metadata.SetVertices] at hk
        rw [if_neg hv] at hk
        rw [AList.get_insert] at hk
        by_cases hkk : NormalizeEdgeID id = k
        · rw [if_pos hkk] at hk
          have hvl : vs = l := Option.some.inj hk
          rw [← hvl]
          intro he
          exact hv (by simp [he])
        · rw [if_neg hkk] at hk; exact h k l hk

/-- C8: `SetVertices` with an empty vertex list deletes the edge key
entirely, the empty Record has no empty vertex list, and the
no-empty-list invariant is preserved by every sequence of Store
mutations. -/
theorem C8_no_empty_vertex_tombstones (m : Metadata) (e : String) :
    AList.get ((m.SetVertices e []).Vertices) (NormalizeEdgeID e) = none ∧
    NoEmptyVertexLists NewMetadata ∧
    (∀ muts : List StoreMutation, NoEmptyVertexLists m →
      NoEmptyVertexLists (muts.foldl applyMutation m)) := by
  refine ⟨?_, ?_, ?_⟩
  · simp [Metadata.SetVertices, AList.get_erase]
  · intro k l hk; simp [NewMetadata, AList.get] at hk
  · intro muts
    induction muts generalizing m with
    | nil => exact fun h => h
    | cons mu rest ih => exact fun h => ih _ (applyMutation_noEmpty m mu h)

/-- Mutation sequence for the C8 witness. -/
def mutsC8 : List StoreMutation :=
  [StoreMutation.setVertices "a->b" [{ X := 1, Y := 2 }],
   StoreMutation.setPosition "n" 3 4,
   StoreMutation.setVertices "c->d" []]

/-- Witness for C8: a concrete mutation sequence from the empty Record,
whose surviving vertex binding is non-empty. -/
theorem C8_no_empty_vertex_tombstones_witness :
    AList.get ((NewMetadata.SetVertices "e" []).Vertices) (NormalizeEdgeID "e") = none ∧
    ([{ X := 1, Y := 2 }] : List Vertex) ≠ [] :=
  ⟨(C8_no_empty_vertex_tombstones NewMetadata "e").1,
   (C8_no_empty_vertex_tombstones NewMetadata "e").2.2 mutsC8
     (C8_no_empty_vertex_tombstones NewMetadata "e").2.1
     "a->b" [{ X := 1, Y := 2 }] (by decide)⟩

/-- C10: the node-offset operations use the node identifier verbatim:
`SetPosition s` writes the entry for `s` and leaves any distinct key
`t` (for instance the escaped form of `s`) untouched, `GetPosition t`
is unaffected, and `ClearPosition s` leaves the entry of `t`. -/
theorem C10_positions_verbatim (m : Metadata) (s t : String) (dx dy : Rat)
    (h : s ≠ t) :
    AList.get (m.SetPosition s dx dy).Positions s = some { DX := dx, DY := dy } ∧
    AList.get (m.SetPosition s dx dy).Positions t = AList.get m.Positions t ∧
    (m.SetPosition s dx dy).GetPosition t = m.GetPosition t ∧
    AList.get (m.ClearPosition s).Positions t = AList.get m.Positions t := by
  refine ⟨?_, ?_, ?_, ?_⟩
  · simp [Metadata.SetPosition, AList.get_insert_self]
  · simp [Metadata.SetPosition, AList.get_insert_ne _ _ _ _ h]
  · simp [Metadata.GetPosition, Metadata.SetPosition, AList.get_insert_ne _ _ _ _ h]
  · simp [Metadata.ClearPosition, AList.get_erase, h]

/-- Record for the C10 witness: one entry stored under the escaped
representation. -/
def mC10 : Metadata :=
  { NewMetadata with Positions := [("a-&gt;b", { DX := 9, DY := 9 })] }

/-- Witness for C10 at the literal identifier and its escaped form
(which normalizes to it but is a distinct string). -/
theorem C10_positions_verbatim_witness :
    ("a->b" : String) ≠ "a-&gt;b" ∧
    NormalizeEdgeID "a-&gt;b" = "a->b" ∧
    AList.get ((mC10.SetPosition "a->b" 5 6).Positions) "a->b" =
      some { DX := 5, DY := 6 } ∧
    AList.get ((mC10.SetPosition "a->b" 5 6).Positions) "a-&gt;b" =
      AList.get mC10.Positions "a-&gt;b" ∧
    (mC10.SetPosition "a->b" 5 6).GetPosition "a-&gt;b" = mC10.GetPosition "a-&gt;b" ∧
    AList.get ((mC10.ClearPosition "a->b").Positions) "a-&gt;b" =
      AList.get mC10.Positions "a-&gt;b" :=
  ⟨by decide, by decide,
   (C10_positions_verbatim mC10 "a->b" "a-&gt;b" 5 6 (by decide)).1,
   (C10_positions_verbatim mC10 "a->b" "a-&gt;b" 5 6 (by decide)).2.1,
   (C10_positions_verbatim mC10 "a->b" "a-&gt;b" 5 6 (by decide)).2.2.1,
   (C10_positions_verbatim mC10 "a->b" "a-&gt;b" 5 6 (by decide)).2.2.2⟩

/-- Rendering collaborator that always succeeds, for concrete runs of
the message loop. -/
def rNone : String → Except String String := fun _ => Except.ok ""

/-- Server for the C1 evaluation: a file is open and the Store holds a
single override, an edge vertex list (no node offsets). -/
def sC1 : SState :=
  { FilePath := "/tmp/x.d2"
    fileContent := "a -> b"
    metadata := { NewMetadata with Vertices := [("a->b", [{ X := 12, Y := 34 }])] }
    fs := []
    sourceFs := [] }

/-- C1 (code bug evidence): the Store holds an override (an edge vertex
list), yet the initial messages to a connecting viewer consist of the
current text only — no snapshot message at all — because `GetMetadata`
copies only the `Positions` map, so the snapshot gate sees an empty
copy.  The claim requires a snapshot carrying that stored override. -/
theorem C1_initial_snapshot_missing :
    sC1.metadata.HasVertices = true ∧
    initialMessages sC1 = [{ typ := "file-changed", Source := "a -> b" }] :=
  ⟨rfl, rfl⟩

/-- Server for the C3 evaluation: the Store holds one override of every
category. -/
def sC3 : SState :=
  { FilePath := "/tmp/x.d2"
    fileContent := "a -> b"
    metadata :=
      { Version := 1
        Positions := [("n1", { DX := 1, DY := 2 })]
        Vertices := [("a->b", [{ X := 3, Y := 4 }])]
        RoutingMode := [("a->b", "orthogonal")]
        LabelPositions := [("a->b", { Distance := 0.25, OffsetX := 0, OffsetY := 0 })]
        SourceHash := "abcdef0123456789" }
    fs := []
    sourceFs := [] }

/-- C3 (code bug evidence): handling the clear-all message resets the
node-offset map, persists, and broadcasts the cleared-notice to all
viewers — but `ClearAllPositions` leaves the vertices, routing-mode and
label-placement maps with their entries, although the claim (and the
comment on the handler case) requires every override map cleared. -/
theorem C3_clear_leaves_other_maps :
    (handleMessage rNone sC3 { typ := "clear-positions" }).1.metadata.Positions = [] ∧
    (handleMessage rNone sC3 { typ := "clear-positions" }).1.metadata.Vertices =
      [("a->b", [{ X := 3, Y := 4 }])] ∧
    (handleMessage rNone sC3 { typ := "clear-positions" }).1.metadata.RoutingMode =
      [("a->b", "orthogonal")] ∧
    (handleMessage rNone sC3 { typ := "clear-positions" }).1.metadata.LabelPositions =
      [("a->b", { Distance := 0.25, OffsetX := 0, OffsetY := 0 })] ∧
    (handleMessage rNone sC3 { typ := "clear-positions" }).2 =
      [Outgoing.toAll { typ := "positions-cleared" }] :=
  ⟨rfl, rfl, rfl, rfl, rfl⟩

/-- Server for the C9 runs. -/
def st9 : SState :=
  { FilePath := "/tmp/x.d2"
    fileContent := ""
    metadata := NewMetadata
    fs := []
    sourceFs := [] }

/-- C9 counterexample: a message of unknown kind is silently ignored by
the switch (which has no default case) — the originating viewer gets no
message at all, in particular no error answer, refuting the claim that
every invalid protocol message is answered with an error message. -/
theorem C9_unknown_kind_silently_ignored :
    handleMessage rNone st9 { typ := "bogus" } = (st9, []) := rfl

/-- C9 (amended): an override-mutation message with an empty required
identifier is answered with exactly one error message on the
originating connection and changes nothing (Store, sidecar, file and
text state identical, no broadcast); a message of unknown kind is
silently ignored — no reply at all — and likewise changes nothing. -/
theorem C9_invalid_message_isolation (render : String → Except String String)
    (st : SState) (msg : WSMessage) :
    (msg.typ = "position" ∧ msg.NodeID = "" →
      handleMessage render st msg =
        (st, [Outgoing.toOrigin { typ := "error", Error := "nodeId is required" }])) ∧
    ((msg.typ = "vertices" ∨ msg.typ = "routing" ∨ msg.typ = "label-position") ∧
        msg.EdgeID = "" →
      handleMessage render st msg =
        (st, [Outgoing.toOrigin { typ := "error", Error := "edgeId is required" }])) ∧
    (msg.typ ∉ (["render", "save", "position", "vertices", "routing",
                 "label-position", "clear-positions"] : List String) →
      handleMessage render st msg = (st, [])) := by
  refine ⟨?_, ?_, ?_⟩
  · rintro ⟨ht, hn⟩
    simp [handleMessage, ht, hn]
  · rintro ⟨ht, he⟩
    rcases ht with ht | ht | ht <;> simp [handleMessage, ht, he]
  · intro hu
    simp only [List.mem_cons, List.not_mem_nil, or_false, not_or] at hu
    obtain ⟨h1, h2, h3, h4, h5, h6, h7⟩ := hu
    simp [handleMessage, h1, h2, h3, h4, h5, h6, h7]

/-- Witness for the amended C9: concrete empty-identifier mutation
messages draw exactly the error reply with the state unchanged, and a
concrete unknown-kind message draws no reply with the state
unchanged. -/
theorem C9_invalid_message_isolation_witness :
    handleMessage rNone st9 { typ := "position" } =
      (st9, [Outgoing.toOrigin { typ := "error", Error := "nodeId is required" }]) ∧
    handleMessage rNone st9 { typ := "vertices" } =
      (st9, [Outgoing.toOrigin { typ := "error", Error := "edgeId is required" }]) ∧
    handleMessage rNone st9 { typ := "mystery" } = (st9, []) :=
  ⟨(C9_invalid_message_isolation rNone st9 { typ := "position" }).1 ⟨rfl, rfl⟩,
   (C9_invalid_message_isolation rNone st9 { typ := "vertices" }).2.1 ⟨Or.inl rfl, rfl⟩,
   (C9_invalid_message_isolation rNone st9 { typ := "mystery" }).2.2 (by decide)⟩

end DiagTool
